import Mathlib

/-!
Verification of the changelog automation scripts
(`.github/scripts/extract_changelog.py` and `.github/scripts/update_changelog.py`).

Documents are modelled as `List Char` (the file content read with `f.read()`).
The two regular expressions used by the scripts,

  extractor: `## \[Unreleased\]\s*(.*?)\s*(?=## \[|$)`   (re.DOTALL, re.search)
  updater:   `## \[Unreleased\]\s*(.*?)\s*(?=## \[)`     (re.DOTALL, re.sub, all matches)
  fallback:  `(## \[)`                                   (re.sub, count=1)

are embedded as explicit scanning functions.  Because each pattern starts with a
literal and the tail `\s*(.*?)\s*(?=…)` is lazy, a match of the first two
patterns at a literal occurrence spans from that occurrence of
`## [Unreleased]` up to (exclusive) the first following occurrence of `## [`
(or, for the extractor, end of string when there is none, the `$` alternative),
and `match.group(1).strip()` equals the stripped text strictly between those two
points: the greedy `\s*` on either side of the lazy group only moves whitespace
between the group and its surroundings, which `.strip()` removes anyway.
`re.sub` then resumes scanning at the end of the previous match.  These
functions are therefore faithful translations of what the Python code computes.
-/

set_option maxRecDepth 16384

/-- Index of the first occurrence of `pat` as a contiguous substring of `s`
(the position at which `re` finds a match of a pattern beginning with the
literal `pat`), or `none` when `pat` occurs nowhere in `s`. -/
def findSub (pat : List Char) : List Char → Option Nat
  | [] => if pat <+: ([] : List Char) then some 0 else none
  | c :: s => if pat <+: c :: s then some 0 else (findSub pat s).map (· + 1)

theorem findSub_some_spec {pat s : List Char} {i : Nat}
    (h : findSub pat s = some i) : pat <+: s.drop i := by
  induction s generalizing i with
  | nil =>
    unfold findSub at h
    split at h
    · cases h; simpa using (by assumption : pat <+: ([] : List Char))
    · cases h
  | cons c s ih =>
    unfold findSub at h
    split at h
    · cases h; simpa using (by assumption : pat <+: c :: s)
    · rcases Option.map_eq_some'.mp h with ⟨i', hi', rfl⟩
      simpa using ih hi'

theorem findSub_some_min {pat s : List Char} {i : Nat}
    (h : findSub pat s = some i) : ∀ j < i, ¬ pat <+: s.drop j := by
  induction s generalizing i with
  | nil =>
    unfold findSub at h
    split at h
    · cases h; omega
    · cases h
  | cons c s ih =>
    unfold findSub at h
    split at h
    · cases h; omega
    · rcases Option.map_eq_some'.mp h with ⟨i', hi', rfl⟩
      intro j hj
      cases j with
      | zero => simpa using (by assumption : ¬ pat <+: c :: s)
      | succ j' => simpa using ih hi' j' (by omega)

theorem findSub_none_spec {pat s : List Char}
    (h : findSub pat s = none) (hp : pat ≠ []) : ∀ j, ¬ pat <+: s.drop j := by
  induction s with
  | nil =>
    intro j hj
    simp only [List.drop_nil] at hj
    exact hp (List.prefix_nil.mp hj)
  | cons c s ih =>
    unfold findSub at h
    split at h
    · cases h
    · intro j
      cases j with
      | zero => simpa using (by assumption : ¬ pat <+: c :: s)
      | succ j' =>
        have h' : findSub pat s = none := by
          cases hfs : findSub pat s with
          | none => rfl
          | some k => rw [hfs] at h; cases h
        simpa using ih h' j'

theorem findSub_eq_some_of {pat s : List Char} {k : Nat}
    (hk : pat <+: s.drop k) (hmin : ∀ j < k, ¬ pat <+: s.drop j) :
    findSub pat s = some k := by
  induction s generalizing k with
  | nil =>
    simp only [List.drop_nil] at hk
    have hpat : pat = [] := List.prefix_nil.mp hk
    cases k with
    | zero => simp [findSub, hpat]
    | succ k' => exact absurd (by simpa [hpat] using (List.nil_prefix : ([] : List Char) <+: [])) (by simpa [hpat] using hmin 0 (by omega))
  | cons c s ih =>
    cases k with
    | zero =>
      simp only [List.drop_zero] at hk
      simp [findSub, hk]
    | succ k' =>
      have h0 : ¬ pat <+: c :: s := by simpa using hmin 0 (by omega)
      have hk' : pat <+: s.drop k' := by simpa using hk
      have hmin' : ∀ j < k', ¬ pat <+: s.drop j := by
        intro j hj
        simpa using hmin (j + 1) (by omega)
      simp [findSub, h0, ih hk' hmin']

theorem findSub_decomp {pat s : List Char} {i : Nat}
    (h : findSub pat s = some i) :
    s = s.take i ++ pat ++ s.drop (i + pat.length) := by
  obtain ⟨u, hu⟩ := findSub_some_spec h
  have hdrop : s.drop (i + pat.length) = u := by
    have : (pat ++ u).drop pat.length = u := List.drop_left pat u
    rw [← this, hu, ← List.drop_drop]
  rw [hdrop, List.append_assoc, hu, List.take_append_drop]

theorem findSub_length_le {pat s : List Char} {i : Nat}
    (hp : 0 < pat.length) (h : findSub pat s = some i) :
    i + pat.length ≤ s.length := by
  have := (findSub_some_spec h).length_le
  simp only [List.length_drop] at this
  omega

/-- Whitespace as Python classifies it for `str` objects: both `str.strip()`
and the regex class `\s` use `Py_UNICODE_ISSPACE`, i.e. exactly the code points
U+0009–U+000D, U+001C–U+001F, U+0020, U+0085, U+00A0, U+1680, U+2000–U+200A,
U+2028, U+2029, U+202F, U+205F and U+3000. -/
def pyWS (c : Char) : Bool :=
  (0x09 ≤ c.toNat && c.toNat ≤ 0x0d) || c.toNat = 0x20
    || (0x1c ≤ c.toNat && c.toNat ≤ 0x1f) || c.toNat = 0x85 || c.toNat = 0xa0
    || c.toNat = 0x1680 || (0x2000 ≤ c.toNat && c.toNat ≤ 0x200a)
    || c.toNat = 0x2028 || c.toNat = 0x2029 || c.toNat = 0x202f
    || c.toNat = 0x205f || c.toNat = 0x3000

/-- Python `str.strip()`: remove leading and trailing whitespace. -/
def pyStrip (s : List Char) : List Char :=
  ((s.dropWhile pyWS).reverse.dropWhile pyWS).reverse

theorem pyStrip_eq_nil_of_ws {s : List Char} (h : ∀ c ∈ s, pyWS c) :
    pyStrip s = [] := by
  unfold pyStrip
  rw [List.dropWhile_eq_nil_iff.mpr h]
  simp

/-- The literal header `## [Unreleased]` (15 characters). -/
def unreleasedHdr : List Char := "## [Unreleased]".data

/-- The literal `## [` that begins every section header. -/
def hdrOpen : List Char := "## [".data

theorem unreleasedHdr_length : unreleasedHdr.length = 15 := rfl

/-- Embeds `extract_unreleased_content` of `extract_changelog.py` (reading the
file aside): `re.search` with `## \[Unreleased\]\s*(.*?)\s*(?=## \[|$)` under
`re.DOTALL` locates the first occurrence of the literal header; the lazy group
then extends to the first following occurrence of `## [`, or to the end of the
string when there is none (the `$` alternative), minus surrounding whitespace,
which `group(1).strip()` removes in either case.  The stripped text is returned
when non-empty (truthiness test); `None` is returned for an empty/whitespace
section or when the header does not occur. -/
def extract_unreleased_content (content : List Char) : Option (List Char) :=
  match findSub unreleasedHdr content with
  | none => none
  | some i =>
    let rest := content.drop (i + 15)
    let q := (findSub hdrOpen rest).getD rest.length
    let unreleased_content := pyStrip (rest.take q)
    if unreleased_content.isEmpty then none else some unreleased_content

/-- The fallback sentence `default_content` of `extract_changelog.py`'s `main`. -/
def default_content : List Char :=
  "This release includes various improvements and bug fixes.".data

/-- The resolved release-notes text of `main`:
`unreleased_content if unreleased_content else default_content`
(the extractor never returns an empty string, so truthiness is `isSome`). -/
def release_content (content : List Char) : List Char :=
  match extract_unreleased_content content with
  | some c => c
  | none => default_content

/-- Embeds `write_release_notes`: opening the output file with mode `'w'`
truncates it, so the file's new content is the written text regardless of what
the file held before. -/
def write_release_notes (_previous written : List Char) : List Char :=
  written

/-- Embeds the inner function `replace_unreleased` of `update_changelog.py`:
it receives `match.group(1)` (here, the text strictly between the
`## [Unreleased]` header and the next `## [`, see the header comment), strips
it, and renders the replacement for the whole matched span.  The returned
string is used literally by `re.sub` because the replacement is a callable. -/
def replace_unreleased (version today g1 : List Char) : List Char :=
  let unreleased_content := pyStrip g1
  if unreleased_content.isEmpty then
    ("## [Unreleased]\n\n## [".data ++ version ++ "] - ".data ++ today
      ++ "\n\n".data)
  else
    ("## [Unreleased]\n\n## [".data ++ version ++ "] - ".data ++ today
      ++ "\n\n".data ++ unreleased_content ++ "\n\n".data)

/-- Fuel-indexed scanner for the primary `re.sub` of `update_changelog.py`
(`re.sub(unreleased_pattern, replace_unreleased, content, flags=re.DOTALL)`,
with no `count` argument, hence replacing every non-overlapping match, scanning
left to right and resuming after each match).  A match starts at an occurrence
of the literal `## [Unreleased]` and ends immediately before the first
following `## [` (see the header comment); when the literal occurs but no
`## [` follows it, no match starts there or anywhere later (a later occurrence
of the literal would itself contain `## [`), so the string is unchanged.
One unit of fuel is spent per replaced match; each match consumes at least 15
characters, so `s.length` fuel always suffices. -/
def goSub (version today : List Char) : Nat → List Char → List Char
  | 0, s => s
  | fuel + 1, s =>
    match findSub unreleasedHdr s with
    | none => s
    | some i =>
      match findSub hdrOpen (s.drop (i + 15)) with
      | none => s
      | some r =>
        s.take i ++ replace_unreleased version today ((s.drop (i + 15)).take r)
          ++ goSub version today fuel ((s.drop (i + 15)).drop r)

/-- The primary `re.sub` itself: `s.length` fuel is always enough. -/
def subUnreleasedAll (version today s : List Char) : List Char :=
  goSub version today s.length s

/-- Embeds the replacement-template processing `re.sub` performs on a string
replacement (CPython parses the template before scanning for matches): `\n`,
`\t`, `\r`, `\a`, `\b`, `\f`, `\v` become the corresponding control
characters, `\\` a backslash, `\1` (not followed by a further digit) the text
of group 1, a backslash before any other ASCII letter or before the end of the
template is an error (`re.error`, modelled as `none`), a backslash before any
other character is kept together with that character.  Remaining digit forms
(`\1` followed by a digit and `\2`–`\9` are references to groups the fallback
pattern `(## \[)` does not have, hence errors; `\0` plus octal escapes do not
arise in any input considered here and are conservatively mapped to `none` as
well). -/
def processTemplate (g1 : List Char) : List Char → Option (List Char)
  | [] => some []
  | c :: rest =>
    if c = '\\' then
      match rest with
      | [] => none
      | d :: rest2 =>
        if d = 'n' then (processTemplate g1 rest2).map (fun l => '\n' :: l)
        else if d = 't' then (processTemplate g1 rest2).map (fun l => '\t' :: l)
        else if d = 'r' then (processTemplate g1 rest2).map (fun l => '\r' :: l)
        else if d = 'a' then (processTemplate g1 rest2).map (fun l => '\x07' :: l)
        else if d = 'b' then (processTemplate g1 rest2).map (fun l => '\x08' :: l)
        else if d = 'f' then (processTemplate g1 rest2).map (fun l => '\x0c' :: l)
        else if d = 'v' then (processTemplate g1 rest2).map (fun l => '\x0b' :: l)
        else if d = '\\' then (processTemplate g1 rest2).map (fun l => '\\' :: l)
        else if d = '1' then
          match rest2 with
          | [] => some g1
          | e :: _ =>
            if e.isDigit then none
            else (processTemplate g1 rest2).map (fun l => g1 ++ l)
        else if d.isDigit then none
        else if d.isAlpha then none
        else (processTemplate g1 rest2).map (fun l => '\\' :: d :: l)
    else (processTemplate g1 rest).map (fun l => c :: l)

/-- The replacement string handed to the fallback `re.sub` of
`update_changelog.py`, after `.format(version, today)` but before template
processing: the Python literal
`'## [Unreleased]\\n\\n## [{}] - {}\\n\\n\\1'` holds literal
backslash-`n` pairs and a literal backslash-`1`. -/
def fallbackTemplate (version today : List Char) : List Char :=
  "## [Unreleased]".data ++ ['\\', 'n', '\\', 'n'] ++ "## [".data ++ version
    ++ "] - ".data ++ today ++ ['\\', 'n', '\\', 'n', '\\', '1']

/-- The fallback `re.sub(version_pattern, …, content, count=1)` with pattern
`(## \[)`: replace the first occurrence of `## [` (group 1 is always that
4-character text) by the processed template `repl`. -/
def subFirstVersion (repl content : List Char) : List Char :=
  match findSub hdrOpen content with
  | none => content
  | some i => content.take i ++ repl ++ content.drop (i + 4)

/-- Embeds `update_changelog` (file I/O aside): run the primary substitution;
if the result is string-equal to the input (`updated_content == content`), run
the fallback substitution instead, whose string replacement template is parsed
eagerly — a template error (possible when `version` or `today` contains a
backslash) raises inside the `try` block, caught as `return False`.
`some c` models "the file is overwritten with `c` and `True` is returned";
`none` models "an exception was caught, nothing is written, `False` is
returned". -/
def update_changelog (version today content : List Char) : Option (List Char) :=
  let updated_content := subUnreleasedAll version today content
  if updated_content = content then
    match processTemplate hdrOpen (fallbackTemplate version today) with
    | none => none
    | some repl => some (subFirstVersion repl content)
  else
    some updated_content

/-- Embeds the `v`-prefix handling of `main` in `update_changelog.py`:
`if version.startswith('v'): version = version[1:]`. -/
def normalizeVersion (version : List Char) : List Char :=
  match version with
  | 'v' :: rest => rest
  | _ => version

/-- The pure core of `main` in `update_changelog.py`: normalize the supplied
version, then update the changelog. -/
def updater_main (arg today content : List Char) : Option (List Char) :=
  update_changelog (normalizeVersion arg) today content

theorem goSub_nil (v t : List Char) (f : Nat) : goSub v t f [] = [] := by
  cases f with
  | zero => rfl
  | succ f =>
    have h : findSub unreleasedHdr [] = none := by decide
    simp [goSub, h]

theorem goSub_none1 (v t : List Char) (f : Nat) {s : List Char}
    (h : findSub unreleasedHdr s = none) : goSub v t f s = s := by
  cases f with
  | zero => rfl
  | succ f => simp [goSub, h]

theorem goSub_none2 (v t : List Char) (f : Nat) {s : List Char} {i : Nat}
    (h1 : findSub unreleasedHdr s = some i)
    (h2 : findSub hdrOpen (s.drop (i + 15)) = none) : goSub v t f s = s := by
  cases f with
  | zero => rfl
  | succ f => simp [goSub, h1, h2]

theorem goSub_fuel (v t : List Char) :
    ∀ n : Nat, ∀ s : List Char, ∀ f : Nat, s.length ≤ n → s.length ≤ f →
      goSub v t f s = goSub v t s.length s := by
  intro n
  induction n with
  | zero =>
    intro s f h1 _
    have hs : s = [] := List.length_eq_zero.mp (by omega)
    subst hs
    rw [goSub_nil, List.length_nil, goSub_nil]
  | succ n ih =>
    intro s f hsn hsf
    cases hfs : findSub unreleasedHdr s with
    | none => rw [goSub_none1 v t f hfs, goSub_none1 v t s.length hfs]
    | some i =>
      cases hfr : findSub hdrOpen (s.drop (i + 15)) with
      | none => rw [goSub_none2 v t f hfs hfr, goSub_none2 v t s.length hfs hfr]
      | some r =>
        have hlen : i + 15 ≤ s.length := by
          have hp15 : 0 < unreleasedHdr.length := by decide
          have h := findSub_length_le hp15 hfs
          rw [unreleasedHdr_length] at h
          omega
        obtain ⟨m, hm⟩ : ∃ m, s.length = m + 1 := ⟨s.length - 1, by omega⟩
        obtain ⟨f', hf'⟩ : ∃ f', f = f' + 1 := ⟨f - 1, by omega⟩
        have htl : ((s.drop (i + 15)).drop r).length ≤ s.length - 15 := by
          simp only [List.length_drop]
          omega
        rw [hm, hf']
        simp only [goSub, hfs, hfr]
        have e1 := ih ((s.drop (i + 15)).drop r) f' (by omega) (by omega)
        have e2 := ih ((s.drop (i + 15)).drop r) m (by omega) (by omega)
        rw [e1, e2]

theorem subAll_none1 (v t : List Char) {s : List Char}
    (h : findSub unreleasedHdr s = none) : subUnreleasedAll v t s = s :=
  goSub_none1 v t s.length h

theorem subAll_none2 (v t : List Char) {s : List Char} {i : Nat}
    (h1 : findSub unreleasedHdr s = some i)
    (h2 : findSub hdrOpen (s.drop (i + 15)) = none) : subUnreleasedAll v t s = s :=
  goSub_none2 v t s.length h1 h2

theorem subAll_step {v t s : List Char} {i r : Nat}
    (h1 : findSub unreleasedHdr s = some i)
    (h2 : findSub hdrOpen (s.drop (i + 15)) = some r) :
    subUnreleasedAll v t s =
      s.take i ++ replace_unreleased v t ((s.drop (i + 15)).take r)
        ++ subUnreleasedAll v t ((s.drop (i + 15)).drop r) := by
  have hlen : i + 15 ≤ s.length := by
    have hp15 : 0 < unreleasedHdr.length := by decide
    have h := findSub_length_le hp15 h1
    rw [unreleasedHdr_length] at h
    omega
  obtain ⟨m, hm⟩ : ∃ m, s.length = m + 1 := ⟨s.length - 1, by omega⟩
  have htl : ((s.drop (i + 15)).drop r).length ≤ s.length - 15 := by
    simp only [List.length_drop]
    omega
  unfold subUnreleasedAll
  rw [hm]
  simp only [goSub, h1, h2]
  rw [goSub_fuel v t ((s.drop (i + 15)).drop r).length _ _ (by omega) (by omega)]

theorem replace_unreleased_eq (v t g1 : List Char) :
    replace_unreleased v t g1 =
      "## [Unreleased]\n\n## [".data ++ v ++ "] - ".data ++ t ++ "\n\n".data
        ++ (if (pyStrip g1).isEmpty then [] else pyStrip g1 ++ "\n\n".data) := by
  cases hps : pyStrip g1 with
  | nil => simp [replace_unreleased, hps]
  | cons a l => simp [replace_unreleased, hps]

theorem subAll_ne {v t s : List Char} {i r : Nat}
    (h1 : findSub unreleasedHdr s = some i)
    (h2 : findSub hdrOpen (s.drop (i + 15)) = some r)
    (h4 : findSub unreleasedHdr ((s.drop (i + 15)).drop r) = none) :
    subUnreleasedAll v t s ≠ s := by
  intro heq
  have hstep := subAll_step (v := v) (t := t) h1 h2
  rw [subAll_none1 v t h4] at hstep
  have hdec : s = s.take i ++ (unreleasedHdr ++ s.drop (i + 15)) := by
    have h := findSub_decomp h1
    rwa [unreleasedHdr_length, List.append_assoc] at h
  rw [hstep] at heq
  conv at heq => rhs; rw [hdec]
  rw [List.append_assoc] at heq
  have heq2 := List.append_cancel_left heq
  rw [replace_unreleased_eq] at heq2
  have hlit : ("## [Unreleased]\n\n## [".data : List Char) =
      unreleasedHdr ++ ('\n' :: '\n' :: hdrOpen) := rfl
  rw [hlit] at heq2
  simp only [List.append_assoc, List.cons_append] at heq2
  have heq3 := List.append_cancel_left heq2
  -- heq3 : '\n' :: '\n' :: (hdrOpen ++ (v ++ …)) = s.drop (i + 15)
  have hpre2 : hdrOpen <+: (s.drop (i + 15)).drop 2 := by
    rw [← heq3]
    exact ⟨_, rfl⟩
  have hspec := findSub_some_spec h2
  have hr2 : r ≤ 2 := by
    by_contra hc
    push_neg at hc
    exact findSub_some_min h2 2 hc hpre2
  have hcases : r = 0 ∨ r = 1 ∨ r = 2 := by omega
  have hOpen : hdrOpen = '#' :: '#' :: ' ' :: '[' :: ([] : List Char) := rfl
  rcases hcases with hr | hr | hr
  · subst hr
    rw [List.drop_zero, ← heq3] at hspec
    obtain ⟨w, hw⟩ := hspec
    rw [hOpen] at hw
    simp only [List.cons_append, List.nil_append] at hw
    exact absurd (List.cons.inj hw).1 (by decide)
  · subst hr
    rw [← heq3] at hspec
    simp only [List.drop_succ_cons, List.drop_zero] at hspec
    obtain ⟨w, hw⟩ := hspec
    rw [hOpen] at hw
    simp only [List.cons_append, List.nil_append] at hw
    exact absurd (List.cons.inj hw).1 (by decide)
  · subst hr
    have htake : (s.drop (i + 15)).take 2 = ['\n', '\n'] := by
      rw [← heq3]
      simp
    have hps : pyStrip ((s.drop (i + 15)).take 2) = [] := by
      rw [htake]
      decide
    rw [hps] at heq3
    simp only [List.isEmpty_nil, if_true, List.append_nil, List.nil_append] at heq3
    have hdrop2 := congrArg (List.drop 2) heq3
    simp only [List.drop_succ_cons, List.drop_zero] at hdrop2
    have hlenq := congrArg List.length hdrop2
    simp [hOpen] at hlenq
    omega

theorem update_primary_eq {v t content : List Char} {i r : Nat}
    (h1 : findSub unreleasedHdr content = some i)
    (h2 : findSub hdrOpen (content.drop (i + 15)) = some r)
    (h4 : findSub unreleasedHdr ((content.drop (i + 15)).drop r) = none) :
    update_changelog v t content =
      some (content.take i
        ++ replace_unreleased v t ((content.drop (i + 15)).take r)
        ++ (content.drop (i + 15)).drop r) := by
  have hne : subUnreleasedAll v t content ≠ content := subAll_ne h1 h2 h4
  unfold update_changelog
  simp only [if_neg hne]
  rw [subAll_step h1 h2, subAll_none1 v t h4]

theorem processTemplate_nobs (g1 xs ys : List Char) (h : '\\' ∉ xs) :
    processTemplate g1 (xs ++ ys) =
      (processTemplate g1 ys).map (fun l => xs ++ l) := by
  induction xs with
  | nil =>
    rw [List.nil_append]
    cases processTemplate g1 ys <;> rfl
  | cons c xs ih =>
    have hc : c ≠ '\\' := fun hcc => h (by simp [hcc])
    have h' : '\\' ∉ xs := fun hm => h (List.mem_cons_of_mem _ hm)
    rw [List.cons_append, processTemplate.eq_def]
    split
    · simp_all
    · rename_i c' rest' heq
      injection heq with hchr htl
      rw [if_neg (hchr ▸ hc), ← hchr, ← htl, ih h']
      cases processTemplate g1 ys <;> simp

theorem processTemplate_bsn (g1 ys : List Char) :
    processTemplate g1 ('\\' :: 'n' :: ys) =
      (processTemplate g1 ys).map (fun l => '\n' :: l) := rfl

theorem processTemplate_fallback {v t : List Char} (hv : '\\' ∉ v) (ht : '\\' ∉ t) :
    processTemplate hdrOpen (fallbackTemplate v t) =
      some ("## [Unreleased]\n\n## [".data ++ v ++ "] - ".data ++ t
        ++ "\n\n".data ++ hdrOpen) := by
  have e0 : fallbackTemplate v t =
      "## [Unreleased]".data
        ++ ('\\' :: 'n' :: ('\\' :: 'n' :: ("## [".data
          ++ (v ++ ("] - ".data
            ++ (t ++ ['\\', 'n', '\\', 'n', '\\', '1'])))))) := by
    unfold fallbackTemplate
    simp [List.append_assoc]
  have etail : processTemplate hdrOpen ['\\', 'n', '\\', 'n', '\\', '1'] =
      some ('\n' :: '\n' :: hdrOpen) := by decide
  rw [e0, processTemplate_nobs _ _ _ (by decide), processTemplate_bsn,
    processTemplate_bsn, processTemplate_nobs _ _ _ (by decide),
    processTemplate_nobs _ _ _ hv, processTemplate_nobs _ _ _ (by decide),
    processTemplate_nobs _ _ _ ht, etail]
  have l1 : ("## [Unreleased]\n\n## [".data : List Char) =
      "## [Unreleased]".data ++ '\n' :: '\n' :: "## [".data := rfl
  have l2 : ("\n\n".data : List Char) = ['\n', '\n'] := rfl
  simp [l1, l2]

theorem update_fallback_eq {v t content : List Char} {i : Nat}
    (hq : subUnreleasedAll v t content = content)
    (hi : findSub hdrOpen content = some i)
    (hv : '\\' ∉ v) (ht : '\\' ∉ t) :
    update_changelog v t content =
      some (content.take i
        ++ ("## [Unreleased]\n\n## [".data ++ v ++ "] - ".data ++ t
            ++ "\n\n".data)
        ++ content.drop i) := by
  have hdec : content.drop i = hdrOpen ++ content.drop (i + 4) := by
    obtain ⟨u, hu⟩ := findSub_some_spec hi
    have hd : content.drop (i + 4) = (content.drop i).drop 4 := by
      rw [List.drop_drop, Nat.add_comm]
    have h4 : content.drop (i + 4) = u := by
      rw [hd, ← hu]
      exact List.drop_left hdrOpen u
    rw [h4, hu]
  unfold update_changelog
  simp only [if_pos hq]
  rw [processTemplate_fallback hv ht]
  unfold subFirstVersion
  rw [hi, hdec]
  simp [List.append_assoc]

theorem findSub_isSome_of_infix {pat s : List Char} (hp : pat ≠ [])
    (h : pat <:+: s) : ∃ i, findSub pat s = some i := by
  cases hfs : findSub pat s with
  | some i => exact ⟨i, rfl⟩
  | none =>
    obtain ⟨pre, suf, hw⟩ := h
    have hocc : pat <+: s.drop pre.length := by
      rw [← hw, List.append_assoc, List.drop_left]
      exact ⟨suf, rfl⟩
    exact absurd hocc (findSub_none_spec hfs hp _)

/-- C5: for every changelog document containing no `## [Unreleased]` header but
at least one `## [` header (and a version/date pair free of template-escape
backslashes, as a real version and an ISO-8601 date always are),
`update_changelog` inserts a `## [Unreleased]` header plus the new dated
version header immediately before the first `## [` header, and the result is
`prefix ++ inserted block ++ suffix` where `prefix ++ suffix` is exactly the
original document, so every byte of the original, including all existing
sections, is present unchanged. -/
theorem C5_fallback_insertion {v t content : List Char} {i : Nat}
    (hno : findSub unreleasedHdr content = none)
    (hi : findSub hdrOpen content = some i)
    (hv : '\\' ∉ v) (ht : '\\' ∉ t) :
    update_changelog v t content =
      some (content.take i
        ++ ("## [Unreleased]\n\n## [".data ++ v ++ "] - ".data ++ t
            ++ "\n\n".data)
        ++ content.drop i)
    ∧ content.take i ++ content.drop i = content :=
  ⟨update_fallback_eq (subAll_none1 v t hno) hi hv ht,
    List.take_append_drop i content⟩

/-- Witness for C5 on a concrete changelog with only released sections. -/
theorem C5_witness :
    update_changelog ("2.0.0".data) ("2024-06-01".data)
        ("# Changelog\n\n## [1.0.0] - 2024-01-01\n- Old\n".data) =
      some (("# Changelog\n\n## [1.0.0] - 2024-01-01\n- Old\n".data).take 13
        ++ ("## [Unreleased]\n\n## [".data ++ "2.0.0".data ++ "] - ".data
            ++ "2024-06-01".data ++ "\n\n".data)
        ++ ("# Changelog\n\n## [1.0.0] - 2024-01-01\n- Old\n".data).drop 13) :=
  (C5_fallback_insertion (i := 13) (by decide) (by decide) (by decide)
    (by decide)).1

/-- C9 (implicit): a document containing no `## [` header at all (hence also
no `## [Unreleased]` header) is written back unchanged and the call reports
success: neither substitution matches, so the updater is a no-op that does not
fail (given the ambient version and date contain no backslash, so that the
eagerly parsed fallback template is well formed). -/
theorem C9_no_headers_noop {v t content : List Char}
    (hv : '\\' ∉ v) (ht : '\\' ∉ t)
    (h : findSub hdrOpen content = none) :
    update_changelog v t content = some content := by
  have hnu : findSub unreleasedHdr content = none := by
    cases hfs : findSub unreleasedHdr content with
    | none => rfl
    | some i =>
      have hocc := findSub_some_spec hfs
      have hpo : hdrOpen <+: content.drop i :=
        (show hdrOpen <+: unreleasedHdr by decide).trans hocc
      exact absurd hpo (findSub_none_spec h (by decide) i)
  have hq : subUnreleasedAll v t content = content := subAll_none1 v t hnu
  unfold update_changelog
  simp only [if_pos hq]
  rw [processTemplate_fallback hv ht]
  unfold subFirstVersion
  rw [h]

/-- Witness for C9 on a concrete document with no section headers. -/
theorem C9_witness :
    update_changelog ("1.2.3".data) ("2024-05-05".data)
        ("# Notes\nnothing here yet\n".data) =
      some ("# Notes\nnothing here yet\n".data) :=
  C9_no_headers_noop (by decide) (by decide) (by decide)

/-- C8: when the `## [Unreleased]` section exists but its body strips to
nothing, and when no `## [Unreleased]` header occurs at all, the extractor
returns `none` (absent, not an exception), and `main` therefore writes exactly
the fixed fallback sentence to the output file, fully overwriting whatever the
file previously held. -/
theorem C8_fallback_on_empty_or_missing {content prior : List Char}
    (h : findSub unreleasedHdr content = none ∨
      ∃ i, findSub unreleasedHdr content = some i ∧
        pyStrip ((content.drop (i + 15)).take
          ((findSub hdrOpen (content.drop (i + 15))).getD
            (content.drop (i + 15)).length)) = []) :
    extract_unreleased_content content = none ∧
      write_release_notes prior (release_content content) = default_content := by
  have hx : extract_unreleased_content content = none := by
    rcases h with hn | ⟨i, hi, hempty⟩
    · unfold extract_unreleased_content
      rw [hn]
    · unfold extract_unreleased_content
      rw [hi]
      simp only [List.length_drop] at hempty
      simp [hempty]
  refine ⟨hx, ?_⟩
  unfold write_release_notes release_content
  rw [hx]

/-- Witness for C8: an empty unreleased section and a missing one, each with a
non-trivial prior output-file content that gets overwritten. -/
theorem C8_witness :
    (extract_unreleased_content
        ("## [Unreleased]\n\n## [1.0.0] - 2024-01-01\nStuff\n".data) = none ∧
      write_release_notes ("old notes".data)
        (release_content
          ("## [Unreleased]\n\n## [1.0.0] - 2024-01-01\nStuff\n".data)) =
        default_content) ∧
    (extract_unreleased_content ("# Changelog\n\n## [1.0.0] - 2024-01-01\n".data)
        = none ∧
      write_release_notes ("old notes".data)
        (release_content ("# Changelog\n\n## [1.0.0] - 2024-01-01\n".data)) =
        default_content) :=
  ⟨C8_fallback_on_empty_or_missing (Or.inr ⟨0, by decide, by decide⟩),
    C8_fallback_on_empty_or_missing (Or.inl (by decide))⟩

/-- C10 (implicit): an `## [Unreleased]` section whose body consists only of
whitespace characters is treated exactly like an empty one: the extractor
strips the captured body to the empty string, fails the truthiness test and
returns `none`, so the output file receives the fallback sentence. -/
theorem C10_ws_only_section {content prior : List Char} {i : Nat}
    (hi : findSub unreleasedHdr content = some i)
    (hws : ∀ c ∈ (content.drop (i + 15)).take
        ((findSub hdrOpen (content.drop (i + 15))).getD
          (content.drop (i + 15)).length), pyWS c) :
    extract_unreleased_content content = none ∧
      write_release_notes prior (release_content content) = default_content := by
  have hempty := pyStrip_eq_nil_of_ws hws
  have hx : extract_unreleased_content content = none := by
    unfold extract_unreleased_content
    rw [hi]
    simp only [List.length_drop] at hempty
    simp [hempty]
  refine ⟨hx, ?_⟩
  unfold write_release_notes release_content
  rw [hx]

/-- Witness for C10 on a section holding only blanks, tabs and newlines. -/
theorem C10_witness :
    extract_unreleased_content
        ("## [Unreleased]\n \t \n\n## [1.0.0] - 2024-01-01\n".data) = none ∧
      write_release_notes ("previous".data)
        (release_content
          ("## [Unreleased]\n \t \n\n## [1.0.0] - 2024-01-01\n".data)) =
        default_content :=
  C10_ws_only_section (i := 0) (by decide) (by decide)

/-- C2 counterexample: on a document whose unreleased body trims to nothing,
the claim says the extractor returns exactly the trimmed text between the
first `## [Unreleased]` header and the next `## [` header (here the empty
string); the code instead returns `None`. -/
theorem C2_counterexample :
    extract_unreleased_content
        ("## [Unreleased]\n\n## [1.0.0] - 2024-01-01\n".data) = none ∧
      ¬ extract_unreleased_content
          ("## [Unreleased]\n\n## [1.0.0] - 2024-01-01\n".data) =
        some (pyStrip
          ((("## [Unreleased]\n\n## [1.0.0] - 2024-01-01\n".data).drop 15).take
            ((findSub hdrOpen
                (("## [Unreleased]\n\n## [1.0.0] - 2024-01-01\n".data).drop 15)).getD
              ((("## [Unreleased]\n\n## [1.0.0] - 2024-01-01\n".data).drop 15).length)))) := by
  constructor
  · decide
  · decide

/-- C2 (amended): for a document `p ++ "## [Unreleased]" ++ rest` in which the
header shown is the first one, and `q` marks the next occurrence of `## [` in
`rest` (or `q = rest.length` when there is none, the end-of-file case), the
extractor returns exactly the whitespace-trimmed text strictly between the two
points when that trimmed text is non-empty, and `none` when it strips to
nothing. -/
theorem C2_extract_between (p rest : List Char) (q : Nat)
    (hp : ∀ j < p.length, ¬ unreleasedHdr <+: (p ++ unreleasedHdr ++ rest).drop j)
    (hq : (hdrOpen <+: rest.drop q ∧ ∀ j < q, ¬ hdrOpen <+: rest.drop j)
        ∨ (q = rest.length ∧ ∀ j, ¬ hdrOpen <+: rest.drop j)) :
    extract_unreleased_content (p ++ unreleasedHdr ++ rest) =
      if (pyStrip (rest.take q)).isEmpty then none
      else some (pyStrip (rest.take q)) := by
  have hfs : findSub unreleasedHdr (p ++ unreleasedHdr ++ rest) = some p.length := by
    apply findSub_eq_some_of _ hp
    rw [List.append_assoc, List.drop_left]
    exact ⟨rest, rfl⟩
  have e : (p ++ unreleasedHdr ++ rest).drop (p.length + 15) = rest := by
    rw [List.append_assoc, ← List.drop_drop, List.drop_left]
    exact List.drop_left unreleasedHdr rest
  have e15 : (unreleasedHdr ++ rest).drop 15 = rest := List.drop_left unreleasedHdr rest
  have elen : unreleasedHdr.length + rest.length - 15 = rest.length := by
    rw [unreleasedHdr_length]
    omega
  unfold extract_unreleased_content
  rw [hfs]
  rcases hq with ⟨hocc, hmin⟩ | ⟨hqlen, hnone⟩
  · have hfr : findSub hdrOpen rest = some q := findSub_eq_some_of hocc hmin
    simp [e, e15, elen, hfr]
  · have hfr : findSub hdrOpen rest = none := by
      cases hfr : findSub hdrOpen rest with
      | none => rfl
      | some k => exact absurd (findSub_some_spec hfr) (hnone k)
    subst hqlen
    simp [e, e15, elen, hfr]

/-- Witness for C2 on the spec's example document (non-empty body). -/
theorem C2_witness :
    extract_unreleased_content
        ("## [Unreleased]\n\nSome text\n\n## [1.0.0] - 2024-01-01\n".data) =
      some ("Some text".data) := by
  have e : ("## [Unreleased]\n\nSome text\n\n## [1.0.0] - 2024-01-01\n".data
        : List Char)
      = [] ++ unreleasedHdr ++ "\n\nSome text\n\n## [1.0.0] - 2024-01-01\n".data :=
    rfl
  rw [e, C2_extract_between [] _ 13 (by intro j hj; simp at hj)
    (Or.inl ⟨by decide, by decide⟩)]
  decide

/-- Number of positions at which `pat` occurs as a contiguous substring of `s`. -/
def countOcc (pat s : List Char) : Nat :=
  ((List.range (s.length + 1)).filter (fun j => decide (pat <+: s.drop j))).length

/-- C3 evaluation at the failing input: on the well-formed document
`## [Unreleased]\n\nSome text\n` — exactly one `## [Unreleased]` header,
appearing as the last (and only) section — the primary pattern does not match
(its lookahead requires a following `## [`), so the fallback inserts the
synthetic block before the first `## [`, which is the `## [Unreleased]` header
itself: the output contains two `## [Unreleased]` headers, violating the
documented invariant, and the unreleased text is left unpromoted. -/
theorem C3_code_eval :
    update_changelog ("1.0.0".data) ("2025-01-01".data)
        ("## [Unreleased]\n\nSome text\n".data) =
      some ("## [Unreleased]\n\n## [1.0.0] - 2025-01-01\n\n## [Unreleased]\n\nSome text\n".data)
    ∧ countOcc unreleasedHdr
        ("## [Unreleased]\n\n## [1.0.0] - 2025-01-01\n\n## [Unreleased]\n\nSome text\n".data) = 2 := by
  constructor
  · decide
  · decide

/-- C1 counterexample: a document whose first `## [Unreleased]` section has
the non-empty body `A` and is followed by a `## [` header (a second
`## [Unreleased]` header), satisfying the claim's hypothesis.  The primary
`re.sub` carries no `count` argument, so it also rewrites the second
unreleased section: the remainder of the original document after the first
matched span, `## [Unreleased]\nB\n## [9]\n`, appears nowhere in the output,
refuting "then the remainder of the original document unchanged". -/
theorem C1_counterexample :
    update_changelog ("2.0.0".data) ("2024-01-02".data)
        ("## [Unreleased]\nA\n## [Unreleased]\nB\n## [9]\n".data) =
      some ("## [Unreleased]\n\n## [2.0.0] - 2024-01-02\n\nA\n\n## [Unreleased]\n\n## [2.0.0] - 2024-01-02\n\nB\n\n## [9]\n".data)
    ∧ ¬ ("## [Unreleased]\nB\n## [9]\n".data <:+:
        "## [Unreleased]\n\n## [2.0.0] - 2024-01-02\n\nA\n\n## [Unreleased]\n\n## [2.0.0] - 2024-01-02\n\nB\n\n## [9]\n".data) := by
  constructor
  · decide
  · decide

/-- C1 (amended): for a document whose first `## [Unreleased]` section (at
position `i`) has a body (up to the next `## [`, at offset `r`) that strips to
something non-empty, and that contains no further `## [Unreleased]` header
after that span, the updater produces exactly: the unchanged prefix, an empty
`## [Unreleased]` section, the header `## [<version>] - <today>`, the original
stripped body, and the remainder of the original document (beginning with the
following `## [` header) unchanged. -/
theorem C1_roundtrip {v t content : List Char} {i r : Nat}
    (h1 : findSub unreleasedHdr content = some i)
    (h2 : findSub hdrOpen (content.drop (i + 15)) = some r)
    (h3 : ¬ (pyStrip ((content.drop (i + 15)).take r)).isEmpty)
    (h4 : findSub unreleasedHdr ((content.drop (i + 15)).drop r) = none) :
    update_changelog v t content =
      some (content.take i
        ++ "## [Unreleased]\n\n## [".data ++ v ++ "] - ".data ++ t
        ++ "\n\n".data ++ pyStrip ((content.drop (i + 15)).take r)
        ++ "\n\n".data ++ (content.drop (i + 15)).drop r) := by
  rw [update_primary_eq h1 h2 h4, replace_unreleased_eq, if_neg h3]
  simp [List.append_assoc]

/-- Witness for C1 on the spec's round-trip example. -/
theorem C1_witness :
    update_changelog ("2.0.0".data) ("2024-01-02".data)
        ("Intro\n\n## [Unreleased]\n\nFixed bug X\n\n## [1.0.0] - 2024-01-01\nOld\n".data) =
      some ("Intro\n\n## [Unreleased]\n\n## [2.0.0] - 2024-01-02\n\nFixed bug X\n\n## [1.0.0] - 2024-01-01\nOld\n".data) := by
  rw [C1_roundtrip (i := 7) (r := 15) (by decide) (by decide) (by decide)
    (by decide)]
  decide

/-- C4 counterexample: the primary `re.sub` call carries no `count` argument,
so it replaces every match, not only the first.  Here the text after the first
matched span, `## [Unreleased]\nD\n## [8]\n`, itself matches the pattern; the
claim says it is left unchanged, but it occurs nowhere in the output (in
particular it is not a suffix), because the second unreleased section was
rewritten too. -/
theorem C4_counterexample :
    update_changelog ("3.0.0".data) ("2024-03-04".data)
        ("## [Unreleased]\nC\n## [Unreleased]\nD\n## [8]\n".data) =
      some ("## [Unreleased]\n\n## [3.0.0] - 2024-03-04\n\nC\n\n## [Unreleased]\n\n## [3.0.0] - 2024-03-04\n\nD\n\n## [8]\n".data)
    ∧ ¬ ("## [Unreleased]\nD\n## [8]\n".data <:+:
        "## [Unreleased]\n\n## [3.0.0] - 2024-03-04\n\nC\n\n## [Unreleased]\n\n## [3.0.0] - 2024-03-04\n\nD\n\n## [8]\n".data) := by
  constructor
  · decide
  · decide

/-- C4 (amended): on the fallback path only the first `## [` occurrence is
modified (`count=1`): the text before it and every byte from that occurrence
on reappear unchanged around the inserted block.  On the primary path every
non-overlapping match is replaced; only when the matched `## [Unreleased]`
section is the last one in the document is the text after the first matched
span left unchanged. -/
theorem C4_first_occurrence_only :
    (∀ v t content : List Char, ∀ i : Nat,
      subUnreleasedAll v t content = content → '\\' ∉ v → '\\' ∉ t →
      findSub hdrOpen content = some i →
      update_changelog v t content =
        some (content.take i
          ++ ("## [Unreleased]\n\n## [".data ++ v ++ "] - ".data ++ t
              ++ "\n\n".data)
          ++ content.drop i))
    ∧ (∀ v t content : List Char, ∀ i r : Nat,
      findSub unreleasedHdr content = some i →
      findSub hdrOpen (content.drop (i + 15)) = some r →
      findSub unreleasedHdr ((content.drop (i + 15)).drop r) = none →
      update_changelog v t content =
        some (content.take i
          ++ replace_unreleased v t ((content.drop (i + 15)).take r)
          ++ (content.drop (i + 15)).drop r)) :=
  ⟨fun _ _ _ _ hq hv ht hi => update_fallback_eq hq hi hv ht,
    fun _ _ _ _ _ h1 h2 h4 => update_primary_eq h1 h2 h4⟩

/-- Witness for C4: a fallback-path document (no unreleased section) and a
primary-path document (a single unreleased section followed by a release). -/
theorem C4_witness :
    update_changelog ("1.1.0".data) ("2025-03-03".data)
        ("# C\n\n## [1.0.0] - 2020-01-01\n".data) =
      some (("# C\n\n## [1.0.0] - 2020-01-01\n".data).take 5
        ++ ("## [Unreleased]\n\n## [".data ++ "1.1.0".data ++ "] - ".data
            ++ "2025-03-03".data ++ "\n\n".data)
        ++ ("# C\n\n## [1.0.0] - 2020-01-01\n".data).drop 5)
    ∧ update_changelog ("1.1.0".data) ("2025-03-03".data)
        ("## [Unreleased]\n\nFix\n\n## [1.0.0] - 2020-01-01\n".data) =
      some (("## [Unreleased]\n\nFix\n\n## [1.0.0] - 2020-01-01\n".data).take 0
        ++ replace_unreleased ("1.1.0".data) ("2025-03-03".data)
            ((("## [Unreleased]\n\nFix\n\n## [1.0.0] - 2020-01-01\n".data).drop 15).take 7)
        ++ (("## [Unreleased]\n\nFix\n\n## [1.0.0] - 2020-01-01\n".data).drop 15).drop 7) :=
  ⟨C4_first_occurrence_only.1 _ _ _ 5 (by decide) (by decide) (by decide)
      (by decide),
    C4_first_occurrence_only.2 _ _ _ 0 7 (by decide) (by decide) (by decide)⟩

theorem header_infix_of_subAll {v t content : List Char} {i r : Nat}
    (h1 : findSub unreleasedHdr content = some i)
    (h2 : findSub hdrOpen (content.drop (i + 15)) = some r) :
    ("## [".data ++ v ++ "] - ".data ++ t) <:+: subUnreleasedAll v t content := by
  rw [subAll_step h1 h2, replace_unreleased_eq]
  refine ⟨content.take i ++ "## [Unreleased]\n\n".data,
    "\n\n".data
      ++ (if (pyStrip ((content.drop (i + 15)).take r)).isEmpty then []
          else pyStrip ((content.drop (i + 15)).take r) ++ "\n\n".data)
      ++ subUnreleasedAll v t ((content.drop (i + 15)).drop r), ?_⟩
  simp only [List.append_assoc]
  rfl

theorem header_infix_of_insert (v t pre post : List Char) :
    ("## [".data ++ v ++ "] - ".data ++ t) <:+:
      pre ++ ("## [Unreleased]\n\n## [".data ++ v ++ "] - ".data ++ t
          ++ "\n\n".data) ++ post := by
  refine ⟨pre ++ "## [Unreleased]\n\n".data, "\n\n".data ++ post, ?_⟩
  simp only [List.append_assoc]
  rfl

/-- C6 counterexample: on a document containing no `## [` header at all, the
updater invoked with `v3.1.0` and with `3.1.0` does produce identical output
documents, but neither output contains the header text `## [3.1.0] - <today>`
— nothing was inserted — so the claim's "both containing the header text"
fails as stated. -/
theorem C6_counterexample :
    updater_main ("v3.1.0".data) ("2025-06-01".data) ("# Changelog\n".data) =
        some ("# Changelog\n".data)
    ∧ updater_main ("3.1.0".data) ("2025-06-01".data) ("# Changelog\n".data) =
        some ("# Changelog\n".data)
    ∧ ¬ ("## [3.1.0] - ".data ++ "2025-06-01".data <:+: "# Changelog\n".data) := by
  refine ⟨by decide, by decide, by decide⟩

/-- C6 (amended): invoking the updater with `v3.1.0` and with `3.1.0` on the
same document with the same date yields identical outputs for every document
(exactly one leading `v` is stripped, leaving `3.1.0`); and whenever the
document contains at least one `## [` occurrence (and the date, as an ISO-8601
date always does, contains no backslash), the common output document contains
the header text `## [3.1.0] - <today>`. -/
theorem C6_version_normalization :
    normalizeVersion ("v3.1.0".data) = "3.1.0".data
    ∧ (∀ t content : List Char,
        updater_main ("v3.1.0".data) t content =
          updater_main ("3.1.0".data) t content)
    ∧ (∀ t content : List Char, '\\' ∉ t → hdrOpen <:+: content →
        ("## [3.1.0] - ".data ++ t) <:+:
          (updater_main ("3.1.0".data) t content).getD []) := by
  refine ⟨rfl, fun t content => rfl, fun t content ht hin => ?_⟩
  have hhdr : ("## [3.1.0] - ".data ++ t : List Char) =
      "## [".data ++ "3.1.0".data ++ "] - ".data ++ t := by
    simp only [List.append_assoc]
    rfl
  have hnv : normalizeVersion ("3.1.0".data) = "3.1.0".data := rfl
  by_cases hq : subUnreleasedAll ("3.1.0".data) t content = content
  · obtain ⟨i, hi⟩ := findSub_isSome_of_infix (by decide) hin
    have hupd := update_fallback_eq (v := "3.1.0".data) hq hi (by decide) ht
    unfold updater_main
    rw [hnv, hupd, hhdr]
    exact header_infix_of_insert _ _ _ _
  · cases hfs : findSub unreleasedHdr content with
    | none => exact absurd (subAll_none1 _ _ hfs) hq
    | some i =>
      cases hfr : findSub hdrOpen (content.drop (i + 15)) with
      | none => exact absurd (subAll_none2 _ _ hfs hfr) hq
      | some r =>
        unfold updater_main update_changelog
        rw [hnv]
        simp only [if_neg hq, Option.getD_some]
        rw [hhdr]
        exact header_infix_of_subAll hfs hfr

/-- Witness for C6 on a document that has a `## [` header. -/
theorem C6_witness :
    updater_main ("v3.1.0".data) ("2025-06-01".data)
        ("# Changelog\n\n## [1.0.0] - 2020-01-01\n".data) =
      updater_main ("3.1.0".data) ("2025-06-01".data)
        ("# Changelog\n\n## [1.0.0] - 2020-01-01\n".data)
    ∧ ("## [3.1.0] - ".data ++ "2025-06-01".data) <:+:
        (updater_main ("3.1.0".data) ("2025-06-01".data)
          ("# Changelog\n\n## [1.0.0] - 2020-01-01\n".data)).getD [] :=
  ⟨C6_version_normalization.2.1 _ _,
    C6_version_normalization.2.2 _ _ (by decide) (by decide)⟩

/-- C7 counterexample: a version string containing a backslash (here the four
characters `1`, `\`, `n`, `2`) is not inserted verbatim on the fallback path:
the replacement-template processor turns its `\n` into a newline, so the
version text appears nowhere in the updated document, character for
character. -/
theorem C7_counterexample :
    update_changelog ("1\\n2".data) ("2025-02-03".data)
        ("# Changelog\n\n## [1.0.0] - 2020-01-01\n".data) =
      some ("# Changelog\n\n## [Unreleased]\n\n## [1\n2] - 2025-02-03\n\n## [1.0.0] - 2020-01-01\n".data)
    ∧ ¬ ("1\\n2".data <:+:
        "# Changelog\n\n## [Unreleased]\n\n## [1\n2] - 2025-02-03\n\n## [1.0.0] - 2020-01-01\n".data) := by
  constructor
  · decide
  · decide

/-- C7 (amended): on the primary path (the code's branch condition: the first
substitution changed the document) the supplied version appears verbatim,
character for character, inside the new `## [<version>] - <date>` header for
every version string whatsoever; on the fallback path it appears verbatim
provided the version (and date) contain no backslash — otherwise the
replacement-template processor interprets backslash escapes inside it. -/
theorem C7_version_verbatim :
    (∀ v t content : List Char, subUnreleasedAll v t content ≠ content →
      ("## [".data ++ v ++ "] - ".data ++ t) <:+:
        (update_changelog v t content).getD [])
    ∧ (∀ v t content : List Char, ∀ i : Nat,
      subUnreleasedAll v t content = content →
      findSub hdrOpen content = some i → '\\' ∉ v → '\\' ∉ t →
      ("## [".data ++ v ++ "] - ".data ++ t) <:+:
        (update_changelog v t content).getD []) := by
  constructor
  · intro v t content hne
    cases hfs : findSub unreleasedHdr content with
    | none => exact absurd (subAll_none1 v t hfs) hne
    | some i =>
      cases hfr : findSub hdrOpen (content.drop (i + 15)) with
      | none => exact absurd (subAll_none2 v t hfs hfr) hne
      | some r =>
        unfold update_changelog
        simp only [if_neg hne, Option.getD_some]
        exact header_infix_of_subAll hfs hfr
  · intro v t content i hq hi hv ht
    rw [update_fallback_eq hq hi hv ht, Option.getD_some]
    exact header_infix_of_insert _ _ _ _

/-- Witness for C7: the primary path with a version string that would be
illegal in a template (it contains a backslash), and the fallback path with a
plain version. -/
theorem C7_witness :
    ("## [".data ++ "9\\q".data ++ "] - ".data ++ "2025-04-04".data) <:+:
      (update_changelog ("9\\q".data) ("2025-04-04".data)
        ("## [Unreleased]\n\nFixed\n\n## [1.0.0] - 2020-01-01\n".data)).getD []
    ∧ ("## [".data ++ "1.4.0".data ++ "] - ".data ++ "2025-04-04".data) <:+:
      (update_changelog ("1.4.0".data) ("2025-04-04".data)
        ("# Changelog\n\n## [1.0.0] - 2020-01-01\n".data)).getD [] :=
  ⟨C7_version_verbatim.1 _ _ _ (by decide),
    C7_version_verbatim.2 _ _ _ 13 (by decide) (by decide) (by decide)
      (by decide)⟩
